import Mathlib

/-!
Shallow embedding of the `url-shortning-app` service: the utility functions in
`src/utils.py` (`validate_url`, `normalize_url`, `generate_short_code`,
`get_unique_short_code`), the single-table store of `src/app/database.py`, and
the three request handlers of `src/app/main.py` (`shorten_url`, `redirect_url`,
`get_url_stats`).

Modelling conventions:
  - the store is a list of records in insertion order; SQLAlchemy's
    `query(...).filter(cond).first()` is `List.find?`;
  - the cryptographically secure random source (`secrets.choice`) is an
    oracle stream `rand : Nat → Nat`; each call to `secrets.choice(alphabet)`
    consumes one position of the stream and indexes the alphabet modulo 62;
  - a commit can fail for an external reason (oracle `commitFails`) or because
    the unique index on `short_code` (declared `unique=True` in
    `src/app/database.py`) is violated; either way the handler rolls back, so
    the resulting store state is the pre-insert state;
  - `created_at` timestamps are abstract naturals supplied by the caller.
-/

/-- Python `s.startswith(p)`: `p` is a prefix of `s`, on the character lists. -/
def startswith (s p : String) : Bool :=
  s.toList.take p.toList.length == p.toList

/-- `string.ascii_letters + string.digits`, the alphabet of `generate_short_code`. -/
def alphabet : List Char :=
  "abcdefghijklmnopqrstuvwxyzABCDEFGHIJKLMNOPQRSTUVWXYZ0123456789".toList

/-- Modelled from the spec: the third-party `validators.url` syntax check used by
`validate_url` (library code, not in `src/`). The spec requires "scheme + host";
its boundary examples treat `not-a-valid-url` as invalid even after the
`https://` prefix is added, so the host must look like a domain: nonempty,
containing a dot, and free of spaces. -/
def validators_url (url : String) : Bool :=
  if startswith url "http://" then hostOk (url.toList.drop 7)
  else if startswith url "https://" then hostOk (url.toList.drop 8)
  else false
where
  hostOk (rest : List Char) : Bool :=
    let host := rest.takeWhile (fun c => c != '/')
    !host.isEmpty && host.contains '.' && !host.contains ' '

/-- `validate_url` from `src/utils.py`: reject the empty string, prefix
`https://` when no scheme prefix is present, then run the syntax check. -/
def validate_url (url : String) : Bool :=
  if url == "" then false
  else
    let url2 := if startswith url "http://" || startswith url "https://" then url
                else "https://" ++ url
    validators_url url2

/-- `normalize_url` from `src/utils.py`. -/
def normalize_url (url : String) : String :=
  if startswith url "http://" || startswith url "https://" then url
  else "https://" ++ url

/-- `generate_short_code` from `src/utils.py`: `length` draws from the random
stream starting at position `start`, each indexing the 62-character alphabet. -/
def generate_short_code (rand : Nat → Nat) (start : Nat) (length : Nat) : String :=
  String.mk ((List.range length).map (fun i => alphabet.getD (rand (start + i) % 62) 'a'))

/-- The URL record of `src/app/database.py` (the `urls` table row). -/
structure URLRecord where
  id : Nat
  short_code : String
  original_url : String
  created_at : Nat
deriving Repr, DecidableEq

/-- `db.query(URL).filter(URL.short_code == code).first()` is `some`. -/
def hasCode (db : List URLRecord) (code : String) : Bool :=
  (db.find? (fun r => r.short_code == code)).isSome

/-- Recursion of `get_unique_short_code`'s `for` loop over the remaining
attempts; `start` is the current position in the random stream. -/
def get_unique_aux (db : List URLRecord) (rand : Nat → Nat) (length : Nat) :
    Nat → Nat → String
  | start, 0 => generate_short_code rand start (length + 2)
  | start, n + 1 =>
    let code := generate_short_code rand start length
    match db.find? (fun r => r.short_code == code) with
    | some _ => get_unique_aux db rand length (start + length) n
    | none => code

/-- `get_unique_short_code` from `src/utils.py`: up to `max_attempts` draws of
`length` characters, each checked against the store; on exhaustion, one
unchecked draw of `length + 2` characters. -/
def get_unique_short_code (db : List URLRecord) (rand : Nat → Nat)
    (length : Nat := 6) (max_attempts : Nat := 10) : String :=
  get_unique_aux db rand length 0 max_attempts

/-- `URLShortenResponse` from `src/app/schemas.py`. -/
structure URLShortenResponse where
  short_url : String
  original_url : String
  short_code : String
  created_at : Nat
deriving Repr, DecidableEq

/-- Default `BASE_URL` used to build `short_url`. -/
def base_url : String := "http://localhost:8000"

/-- Outcome of `POST /api/shorten`: 201 with a body, 400, or 500. -/
inductive ShortenResult where
  | created (resp : URLShortenResponse)
  | invalid
  | serverError
deriving Repr, DecidableEq

/-- The `short_code` column of the store, in insertion order. -/
def codes (db : List URLRecord) : List String :=
  db.map (fun r => r.short_code)

/-- `shorten_url` from `src/app/main.py`. `commitFails` is the oracle for an
external failure of `db.commit()`; the commit also fails when the new code
violates the unique index on `short_code`. On failure the handler rolls back
(`db.rollback()`), so the store is returned unchanged. -/
def shorten_url (db : List URLRecord) (rand : Nat → Nat) (commitFails : Bool)
    (now : Nat) (url : String) : ShortenResult × List URLRecord :=
  if validate_url url = false then
    (.invalid, db)
  else
    let normalized_url := normalize_url url
    match db.find? (fun r => r.original_url == normalized_url) with
    | some existing_url =>
      (.created { short_url := base_url ++ "/" ++ existing_url.short_code
                , original_url := existing_url.original_url
                , short_code := existing_url.short_code
                , created_at := existing_url.created_at }, db)
    | none =>
      let short_code := get_unique_short_code db rand 6 10
      if commitFails || (codes db).contains short_code then
        (.serverError, db)
      else
        let db_url : URLRecord :=
          { id := db.length + 1, short_code := short_code
          , original_url := normalized_url, created_at := now }
        (.created { short_url := base_url ++ "/" ++ short_code
                  , original_url := normalized_url
                  , short_code := short_code
                  , created_at := now }, db ++ [db_url])

/-- Outcome of `GET /{short_code}`: 302 with a `Location`, or 404 with a detail. -/
inductive RedirectResult where
  | found (location : String)
  | notFound (detail : String)
deriving Repr, DecidableEq

/-- `redirect_url` from `src/app/main.py`. -/
def redirect_url (db : List URLRecord) (short_code : String) : RedirectResult :=
  match db.find? (fun r => r.short_code == short_code) with
  | none => .notFound ("Short code '" ++ short_code ++ "' not found")
  | some url_record => .found url_record.original_url

/-- Outcome of `GET /api/stats/{short_code}`: 200 with a body, or 404. -/
inductive StatsResult where
  | ok (resp : URLShortenResponse)
  | notFound (detail : String)
deriving Repr, DecidableEq

/-- `get_url_stats` from `src/app/main.py`. -/
def get_url_stats (db : List URLRecord) (short_code : String) : StatsResult :=
  match db.find? (fun r => r.short_code == short_code) with
  | none => .notFound ("Short code '" ++ short_code ++ "' not found")
  | some url_record =>
    .ok { short_url := base_url ++ "/" ++ url_record.short_code
        , original_url := url_record.original_url
        , short_code := url_record.short_code
        , created_at := url_record.created_at }

/-- One client operation against the service, with its oracles. -/
inductive StoreOp where
  | create (rand : Nat → Nat) (commitFails : Bool) (now : Nat) (url : String)
  | redirect (short_code : String)
  | stats (short_code : String)

/-- Store state after one operation: only `create` can modify the store;
`redirect` and `stats` are read-only. -/
def stepOp (db : List URLRecord) : StoreOp → List URLRecord
  | .create rand commitFails now url => (shorten_url db rand commitFails now url).2
  | .redirect _ => db
  | .stats _ => db

/-- Store state reached from the empty store by a sequence of operations. -/
def runOps (ops : List StoreOp) : List URLRecord :=
  ops.foldl stepOp []

/-! ## Helper lemmas -/

theorem startswith_https_append (s : String) :
    startswith ("https://" ++ s) "https://" = true := by
  have h : ("https://" ++ s).toList = "https://".toList ++ s.toList := by
    simp [String.toList]
  simp [startswith, h, List.take_left]

theorem alphabet_getD_mem (k : Nat) : alphabet.getD (k % 62) 'a' ∈ alphabet := by
  have h : ∀ j, j < 62 → alphabet.getD j 'a' ∈ alphabet := by decide
  exact h _ (Nat.mod_lt _ (by norm_num))

theorem generate_short_code_length (rand : Nat → Nat) (start length : Nat) :
    (generate_short_code rand start length).length = length := by
  simp [generate_short_code, String.length]

theorem shorten_url_invalid (db : List URLRecord) (rand : Nat → Nat)
    (commitFails : Bool) (now : Nat) (u : String) (hv : validate_url u = false) :
    shorten_url db rand commitFails now u = (.invalid, db) := by
  simp [shorten_url, hv]

theorem shorten_url_dedup (db : List URLRecord) (rand : Nat → Nat)
    (commitFails : Bool) (now : Nat) (u : String) (e : URLRecord)
    (hv : validate_url u = true)
    (hf : db.find? (fun r => r.original_url == normalize_url u) = some e) :
    shorten_url db rand commitFails now u =
      (.created { short_url := base_url ++ "/" ++ e.short_code
                , original_url := e.original_url
                , short_code := e.short_code
                , created_at := e.created_at }, db) := by
  simp [shorten_url, hv, hf]

theorem shorten_url_commit_fail (db : List URLRecord) (rand : Nat → Nat)
    (commitFails : Bool) (now : Nat) (u : String)
    (hv : validate_url u = true)
    (hn : db.find? (fun r => r.original_url == normalize_url u) = none)
    (hc : (commitFails || (codes db).contains (get_unique_short_code db rand 6 10)) = true) :
    shorten_url db rand commitFails now u = (.serverError, db) := by
  simp only [shorten_url, hv, hn, hc]
  simp

theorem shorten_url_insert (db : List URLRecord) (rand : Nat → Nat)
    (commitFails : Bool) (now : Nat) (u : String)
    (hv : validate_url u = true)
    (hn : db.find? (fun r => r.original_url == normalize_url u) = none)
    (hc : (commitFails || (codes db).contains (get_unique_short_code db rand 6 10)) = false) :
    shorten_url db rand commitFails now u =
      (.created { short_url := base_url ++ "/" ++ get_unique_short_code db rand 6 10
                , original_url := normalize_url u
                , short_code := get_unique_short_code db rand 6 10
                , created_at := now },
       db ++ [{ id := db.length + 1
              , short_code := get_unique_short_code db rand 6 10
              , original_url := normalize_url u
              , created_at := now }]) := by
  simp only [shorten_url, hv, hn, hc]
  simp

/-- Inversion for a 201 outcome of `shorten_url`: either the dedup lookup hit an
existing record whose fields are echoed and the store is unchanged, or a fresh
code was inserted. -/
theorem shorten_url_created_cases (db : List URLRecord) (rand : Nat → Nat)
    (commitFails : Bool) (now : Nat) (u : String)
    (resp : URLShortenResponse) (db2 : List URLRecord)
    (h : shorten_url db rand commitFails now u = (.created resp, db2)) :
    (∃ e, validate_url u = true ∧
      db.find? (fun r => r.original_url == normalize_url u) = some e ∧
      db2 = db ∧
      resp = { short_url := base_url ++ "/" ++ e.short_code
             , original_url := e.original_url
             , short_code := e.short_code
             , created_at := e.created_at }) ∨
    (validate_url u = true ∧
      db.find? (fun r => r.original_url == normalize_url u) = none ∧
      (commitFails || (codes db).contains (get_unique_short_code db rand 6 10)) = false ∧
      resp = { short_url := base_url ++ "/" ++ get_unique_short_code db rand 6 10
             , original_url := normalize_url u
             , short_code := get_unique_short_code db rand 6 10
             , created_at := now } ∧
      db2 = db ++ [{ id := db.length + 1
                   , short_code := get_unique_short_code db rand 6 10
                   , original_url := normalize_url u
                   , created_at := now }]) := by
  by_cases hv : validate_url u = true
  · cases hf : db.find? (fun r => r.original_url == normalize_url u) with
    | some e =>
      rw [shorten_url_dedup db rand commitFails now u e hv hf] at h
      obtain ⟨h1, h2⟩ := Prod.mk.injEq .. ▸ h
      exact Or.inl ⟨e, hv, rfl, h2.symm, (ShortenResult.created.injEq .. ▸ h1).symm⟩
    | none =>
      cases hc : (commitFails || (codes db).contains (get_unique_short_code db rand 6 10)) with
      | true =>
        rw [shorten_url_commit_fail db rand commitFails now u hv hf hc] at h
        exact absurd h (by simp)
      | false =>
        rw [shorten_url_insert db rand commitFails now u hv hf hc] at h
        obtain ⟨h1, h2⟩ := Prod.mk.injEq .. ▸ h
        exact Or.inr ⟨hv, rfl, rfl, (ShortenResult.created.injEq .. ▸ h1).symm, h2.symm⟩
  · rw [shorten_url_invalid db rand commitFails now u (by simpa using hv)] at h
    exact absurd h (by simp)

theorem get_unique_aux_all_collide (db : List URLRecord) (rand : Nat → Nat) (len : Nat) :
    ∀ (m start : Nat),
      (∀ i, i < m → hasCode db (generate_short_code rand (start + i * len) len) = true) →
      get_unique_aux db rand len start m =
        generate_short_code rand (start + m * len) (len + 2) := by
  intro m
  induction m with
  | zero => intro start _; simp [get_unique_aux]
  | succ n ih =>
    intro start h
    have h0 := h 0 (Nat.succ_pos n)
    simp only [Nat.zero_mul, Nat.add_zero] at h0
    unfold hasCode at h0
    cases hf : db.find? (fun r => r.short_code == generate_short_code rand start len) with
    | none => rw [hf] at h0; simp at h0
    | some e =>
      have h' : ∀ i, i < n →
          hasCode db (generate_short_code rand (start + len + i * len) len) = true := by
        intro i hi
        have hx := h (i + 1) (by omega)
        rw [show start + (i + 1) * len = start + len + i * len by ring] at hx
        exact hx
      simp only [get_unique_aux, hf]
      rw [ih (start + len) h',
        show start + len + n * len = start + (n + 1) * len by ring]

theorem get_unique_aux_first_fresh (db : List URLRecord) (rand : Nat → Nat) (len : Nat) :
    ∀ (m start i : Nat), i < m →
      (∀ j, j < i → hasCode db (generate_short_code rand (start + j * len) len) = true) →
      hasCode db (generate_short_code rand (start + i * len) len) = false →
      get_unique_aux db rand len start m =
        generate_short_code rand (start + i * len) len := by
  intro m
  induction m with
  | zero => intro start i hi; exact absurd hi (Nat.not_lt_zero i)
  | succ n ih =>
    intro start i hi hcoll hfresh
    cases i with
    | zero =>
      simp only [Nat.zero_mul, Nat.add_zero] at hfresh ⊢
      unfold hasCode at hfresh
      cases hf : db.find? (fun r => r.short_code == generate_short_code rand start len) with
      | some e => rw [hf] at hfresh; simp at hfresh
      | none => simp only [get_unique_aux, hf]
    | succ k =>
      have h0 := hcoll 0 (Nat.succ_pos k)
      simp only [Nat.zero_mul, Nat.add_zero] at h0
      unfold hasCode at h0
      cases hf : db.find? (fun r => r.short_code == generate_short_code rand start len) with
      | none => rw [hf] at h0; simp at h0
      | some e =>
        have hcoll' : ∀ j, j < k →
            hasCode db (generate_short_code rand (start + len + j * len) len) = true := by
          intro j hj
          have hx := hcoll (j + 1) (by omega)
          rw [show start + (j + 1) * len = start + len + j * len by ring] at hx
          exact hx
        have hfresh' :
            hasCode db (generate_short_code rand (start + len + k * len) len) = false := by
          rw [show start + len + k * len = start + (k + 1) * len by ring]
          exact hfresh
        simp only [get_unique_aux, hf]
        rw [ih (start + len) k (by omega) hcoll' hfresh',
          show start + len + k * len = start + (k + 1) * len by ring]

/-! ## Claim theorems -/

/-- C10: `normalize_url` is idempotent — for every string `u`,
`normalize_url (normalize_url u) = normalize_url u`, because its output always
starts with `http://` or `https://` and inputs with either prefix are returned
unchanged. -/
theorem normalize_url_idempotent (s : String) :
    normalize_url (normalize_url s) = normalize_url s := by
  unfold normalize_url
  by_cases h : (startswith s "http://" || startswith s "https://") = true
  · simp [h]
  · simp [h, startswith_https_append]

/-- C8: for every length and every random stream, `generate_short_code` returns
a string of exactly `length` characters, each drawn from the 62-character
alphanumeric alphabet; with the default length 6 used by `shorten_url`, a fresh
code has length 6. -/
theorem generate_short_code_spec (rand : Nat → Nat) (start length : Nat) :
    (generate_short_code rand start length).length = length ∧
    (∀ c ∈ (generate_short_code rand start length).toList, c ∈ alphabet) ∧
    alphabet.length = 62 ∧
    (generate_short_code rand start 6).length = 6 := by
  refine ⟨generate_short_code_length rand start length, ?_, by decide,
    generate_short_code_length rand start 6⟩
  intro c hc
  simp only [generate_short_code, String.toList, List.mem_map] at hc
  obtain ⟨i, _, rfl⟩ := hc
  exact alphabet_getD_mem _

theorem generate_short_code_spec_witness :
    'a' ∈ alphabet ∧ (generate_short_code (fun _ => 0) 0 6).length = 6 :=
  ⟨(generate_short_code_spec (fun _ => 0) 0 6).2.1 'a' (by decide),
   (generate_short_code_spec (fun _ => 0) 0 6).1⟩

/-- C4: inputs without an `http://`/`https://` prefix get `https://` prepended
by `normalize_url`, inputs with such a prefix are returned unchanged, and
`shorten_url` compares and stores the normalized form: every 201 response
carries `normalize_url u` as `original_url`, and every record it adds to the
store carries `normalize_url u` as `original_url`. -/
theorem normalize_url_shorten_spec (s u : String) (db : List URLRecord)
    (rand : Nat → Nat) (commitFails : Bool) (now : Nat) :
    ((startswith s "http://" || startswith s "https://") = false →
      normalize_url s = "https://" ++ s) ∧
    ((startswith s "http://" || startswith s "https://") = true →
      normalize_url s = s) ∧
    (∀ resp db2, shorten_url db rand commitFails now u = (.created resp, db2) →
      resp.original_url = normalize_url u ∧
      ∀ r ∈ db2, r ∈ db ∨ r.original_url = normalize_url u) := by
  refine ⟨fun h => by simp [normalize_url, h], fun h => by simp [normalize_url, h], ?_⟩
  intro resp db2 h
  rcases shorten_url_created_cases db rand commitFails now u resp db2 h with
    ⟨e, _, hf, hdb, hresp⟩ | ⟨_, _, _, hresp, hdb⟩
  · subst hdb hresp
    have he := List.find?_some hf
    simp only [beq_iff_eq] at he
    exact ⟨he, fun r hr => Or.inl hr⟩
  · subst hdb hresp
    refine ⟨rfl, fun r hr => ?_⟩
    rcases List.mem_append.mp hr with hl | hx
    · exact Or.inl hl
    · simp only [List.mem_singleton] at hx
      subst hx
      exact Or.inr rfl

theorem normalize_url_shorten_spec_witness :
    normalize_url "example.com" = "https://example.com" ∧
    normalize_url "http://a.b" = "http://a.b" :=
  ⟨(normalize_url_shorten_spec "example.com" "x" [] (fun _ => 0) false 0).1 (by decide),
   (normalize_url_shorten_spec "http://a.b" "x" [] (fun _ => 0) false 0).2.1 (by decide)⟩

/-- C5: `shorten_url` answers 400 exactly when the raw URL is empty or the
`https://`-prefixed form fails the URL-syntax check; in particular `""` and
`"not-a-valid-url"` are rejected, and a rejected input inserts no record. -/
theorem invalid_input_spec (db : List URLRecord) (rand : Nat → Nat)
    (commitFails : Bool) (now : Nat) (u : String) :
    ((shorten_url db rand commitFails now u).1 = .invalid ↔ validate_url u = false) ∧
    (validate_url u = false ↔ (u = "" ∨ validators_url (normalize_url u) = false)) ∧
    (validate_url u = false → (shorten_url db rand commitFails now u).2 = db) ∧
    validate_url "" = false ∧
    validate_url "not-a-valid-url" = false := by
  refine ⟨⟨?_, ?_⟩, ?_, ?_, by decide, by decide⟩
  · intro h1
    by_contra hv
    have hv' : validate_url u = true := by simpa using hv
    cases hf : db.find? (fun r => r.original_url == normalize_url u) with
    | some e =>
      rw [shorten_url_dedup db rand commitFails now u e hv' hf] at h1
      simp at h1
    | none =>
      cases hc : (commitFails || (codes db).contains (get_unique_short_code db rand 6 10)) with
      | false =>
        rw [shorten_url_insert db rand commitFails now u hv' hf hc] at h1
        simp at h1
      | true =>
        rw [shorten_url_commit_fail db rand commitFails now u hv' hf hc] at h1
        simp at h1
  · intro hv
    rw [shorten_url_invalid db rand commitFails now u hv]
  · unfold validate_url normalize_url
    by_cases he : u = ""
    · subst he; simp
    · simp [he]
  · intro hv
    rw [shorten_url_invalid db rand commitFails now u hv]

theorem invalid_input_spec_witness :
    validate_url "" = false ∧
    validate_url "not-a-valid-url" = false ∧
    (shorten_url [] (fun _ => 0) false 0 "").2 = [] :=
  ⟨(invalid_input_spec [] (fun _ => 0) false 0 "").2.2.2.1,
   (invalid_input_spec [] (fun _ => 0) false 0 "not-a-valid-url").2.2.2.2,
   (invalid_input_spec [] (fun _ => 0) false 0 "").2.2.1 (by decide)⟩

/-- C6: for a short code matching no record (by exact, case-sensitive string
comparison), both `redirect_url` and `get_url_stats` answer 404 with a detail
message that contains the short code. -/
theorem not_found_spec (db : List URLRecord) (c : String)
    (h : ∀ r ∈ db, r.short_code ≠ c) :
    redirect_url db c = .notFound ("Short code '" ++ c ++ "' not found") ∧
    get_url_stats db c = .notFound ("Short code '" ++ c ++ "' not found") := by
  have hf : db.find? (fun r => r.short_code == c) = none := by
    rw [List.find?_eq_none]
    intro r hr
    simpa using h r hr
  constructor <;> simp [redirect_url, get_url_stats, hf]

theorem not_found_spec_witness :
    redirect_url [{ id := 1, short_code := "abc"
                  , original_url := "https://example.com", created_at := 0 }] "ABC"
      = .notFound ("Short code '" ++ "ABC" ++ "' not found") ∧
    get_url_stats [{ id := 1, short_code := "abc"
                   , original_url := "https://example.com", created_at := 0 }] "ABC"
      = .notFound ("Short code '" ++ "ABC" ++ "' not found") :=
  not_found_spec
    [{ id := 1, short_code := "abc", original_url := "https://example.com", created_at := 0 }]
    "ABC" (by decide)

/-- C9: when the dedup lookup misses and the commit of the new record fails
(external failure or unique-index violation), `shorten_url` answers 500 and the
store observable afterwards equals the store before the insert. -/
theorem insert_failure_rollback (db : List URLRecord) (rand : Nat → Nat)
    (commitFails : Bool) (now : Nat) (u : String)
    (hv : validate_url u = true)
    (hn : db.find? (fun r => r.original_url == normalize_url u) = none)
    (hf : (commitFails || (codes db).contains (get_unique_short_code db rand 6 10)) = true) :
    shorten_url db rand commitFails now u = (.serverError, db) :=
  shorten_url_commit_fail db rand commitFails now u hv hn hf

theorem insert_failure_rollback_witness :
    shorten_url [] (fun _ => 0) true 0 "example.com" = (.serverError, []) :=
  insert_failure_rollback [] (fun _ => 0) true 0 "example.com"
    (by decide) (by decide) (by decide)

/-- C1: `get_unique_short_code` tries up to `max_attempts` candidates of
`length` characters (attempt `i` reads the random stream at offset
`i * length`), returns the first one absent from the store, and — when every
attempt collides — falls back exactly once to a `length + 2` code that it
returns WITHOUT re-checking against the store (the all-collide equation below
holds with no assumption on the fallback code). The Lean function is total, so
some code is returned for every store state and every `max_attempts ≥ 0`. -/
theorem get_unique_short_code_spec (db : List URLRecord) (rand : Nat → Nat)
    (len m : Nat) :
    ((∀ i, i < m → hasCode db (generate_short_code rand (i * len) len) = true) →
      get_unique_short_code db rand len m =
        generate_short_code rand (m * len) (len + 2)) ∧
    (∀ i, i < m →
      (∀ j, j < i → hasCode db (generate_short_code rand (j * len) len) = true) →
      hasCode db (generate_short_code rand (i * len) len) = false →
      get_unique_short_code db rand len m = generate_short_code rand (i * len) len) := by
  constructor
  · intro h
    have hx := get_unique_aux_all_collide db rand len m 0
      (by intro i hi; simpa using h i hi)
    simpa using hx
  · intro i hi hcoll hfresh
    have hx := get_unique_aux_first_fresh db rand len m 0 i hi
      (by intro j hj; simpa using hcoll j hj) (by simpa using hfresh)
    simpa using hx

theorem get_unique_short_code_spec_witness :
    get_unique_short_code
        [{ id := 1, short_code := "a", original_url := "https://x.com", created_at := 0 }]
        (fun _ => 0) 1 1 = "aaa" ∧
    get_unique_short_code [] (fun _ => 0) 6 10 = "aaaaaa" := by
  constructor
  · have h := (get_unique_short_code_spec
        [{ id := 1, short_code := "a", original_url := "https://x.com", created_at := 0 }]
        (fun _ => 0) 1 1).1 (by decide)
    exact h.trans (by decide)
  · have h := (get_unique_short_code_spec [] (fun _ => 0) 6 10).2 0 (by decide)
      (fun j hj => absurd hj (Nat.not_lt_zero j)) (by decide)
    exact h.trans (by decide)

/-- C2: round trip — when `shorten_url` accepts `u` with a 201 response, a
`redirect_url` on the returned `short_code` against the resulting store answers
302 whose target is exactly `normalize_url u` (the stored `original_url`
verbatim), assuming the store's short codes were pairwise distinct. -/
theorem round_trip (db : List URLRecord) (rand : Nat → Nat) (commitFails : Bool)
    (now : Nat) (u : String) (resp : URLShortenResponse) (db2 : List URLRecord)
    (hnd : (codes db).Nodup)
    (h : shorten_url db rand commitFails now u = (.created resp, db2)) :
    redirect_url db2 resp.short_code = .found (normalize_url u) := by
  rcases shorten_url_created_cases db rand commitFails now u resp db2 h with
    ⟨e, _, hf, hdb, hresp⟩ | ⟨_, hfn, hc, hresp, hdb⟩
  · subst hresp
    rw [hdb]
    have hmem := List.mem_of_find?_eq_some hf
    have horig := List.find?_some hf
    simp only [beq_iff_eq] at horig
    show redirect_url db e.short_code = _
    unfold redirect_url
    cases hr : db.find? (fun r => r.short_code == e.short_code) with
    | none =>
      rw [List.find?_eq_none] at hr
      exact absurd (by simp : (e.short_code == e.short_code) = true)
        (by simpa using hr e hmem)
    | some r =>
      have hrmem := List.mem_of_find?_eq_some hr
      have hrcode := List.find?_some hr
      simp only [beq_iff_eq] at hrcode
      have hre : r = e := List.inj_on_of_nodup_map hnd hrmem hmem hrcode
      simp [hre, horig]
  · subst hdb hresp
    have hfresh : get_unique_short_code db rand 6 10 ∉ codes db := by
      simp only [Bool.or_eq_false_iff] at hc
      simpa using hc.2
    show redirect_url _ (get_unique_short_code db rand 6 10) = _
    unfold redirect_url
    rw [List.find?_append]
    have h1 : db.find? (fun r => r.short_code == get_unique_short_code db rand 6 10)
        = none := by
      rw [List.find?_eq_none]
      intro r hr hbeq
      simp only [beq_iff_eq] at hbeq
      exact hfresh (hbeq ▸ List.mem_map_of_mem (fun x => x.short_code) hr)
    rw [h1]
    simp [List.find?]

theorem round_trip_witness :
    redirect_url
        [{ id := 1, short_code := "aaaaaa"
         , original_url := "https://example.com", created_at := 0 }] "aaaaaa"
      = .found "https://example.com" := by
  have h := round_trip [] (fun _ => 0) false 0 "example.com"
      { short_url := "http://localhost:8000/aaaaaa", original_url := "https://example.com"
      , short_code := "aaaaaa", created_at := 0 }
      [{ id := 1, short_code := "aaaaaa"
       , original_url := "https://example.com", created_at := 0 }]
      (by decide) (by decide)
  exact h.trans (by decide)

theorem find?_append_singleton (db : List URLRecord) (r : URLRecord) (url : String)
    (hfn : db.find? (fun x => x.original_url == url) = none)
    (hr : r.original_url = url) :
    (db ++ [r]).find? (fun x => x.original_url == url) = some r := by
  rw [List.find?_append, hfn]
  simp [List.find?, hr]

/-- C3: dedup idempotence — when a first `shorten_url` call on `u` answers 201,
a second sequential call on any valid `v` normalizing to the same
`original_url` answers 201 with the identical response (in particular the same
`short_code`) and leaves the store unchanged: the existing record's fields are
returned instead of inserting a new record, whatever the second call's random
stream and commit oracle are. -/
theorem dedup_idempotent (db : List URLRecord) (rand rand2 : Nat → Nat)
    (commitFails commitFails2 : Bool) (now now2 : Nat) (u v : String)
    (resp1 : URLShortenResponse) (db1 : List URLRecord)
    (hn : normalize_url u = normalize_url v)
    (hv : validate_url v = true)
    (h1 : shorten_url db rand commitFails now u = (.created resp1, db1)) :
    shorten_url db1 rand2 commitFails2 now2 v = (.created resp1, db1) := by
  rcases shorten_url_created_cases db rand commitFails now u resp1 db1 h1 with
    ⟨e, _, hf, hdb, hresp⟩ | ⟨_, hfn, hc, hresp, hdb⟩
  · subst hresp
    have hf2 : db1.find? (fun r => r.original_url == normalize_url v) = some e := by
      rw [hdb, ← hn]
      exact hf
    exact shorten_url_dedup db1 rand2 commitFails2 now2 v e hv hf2
  · subst hresp hdb
    rw [hn] at hfn
    exact shorten_url_dedup _ rand2 commitFails2 now2 v _ hv
      (find?_append_singleton db _ _ hfn hn)

theorem dedup_idempotent_witness :
    shorten_url
        [{ id := 1, short_code := "aaaaaa"
         , original_url := "https://example.com", created_at := 0 }]
        (fun _ => 1) true 5 "https://example.com"
      = (.created { short_url := "http://localhost:8000/aaaaaa"
                  , original_url := "https://example.com"
                  , short_code := "aaaaaa", created_at := 0 },
         [{ id := 1, short_code := "aaaaaa"
          , original_url := "https://example.com", created_at := 0 }]) :=
  dedup_idempotent [] (fun _ => 0) (fun _ => 1) false true 0 5
    "example.com" "https://example.com"
    { short_url := "http://localhost:8000/aaaaaa", original_url := "https://example.com"
    , short_code := "aaaaaa", created_at := 0 }
    [{ id := 1, short_code := "aaaaaa"
     , original_url := "https://example.com", created_at := 0 }]
    (by decide) (by decide) (by decide)

theorem shorten_url_preserves_nodup (db : List URLRecord) (rand : Nat → Nat)
    (commitFails : Bool) (now : Nat) (u : String)
    (h : (codes db).Nodup) :
    (codes (shorten_url db rand commitFails now u).2).Nodup := by
  by_cases hv : validate_url u = true
  · cases hf : db.find? (fun r => r.original_url == normalize_url u) with
    | some e =>
      rw [shorten_url_dedup db rand commitFails now u e hv hf]
      exact h
    | none =>
      cases hc : (commitFails || (codes db).contains (get_unique_short_code db rand 6 10)) with
      | true =>
        rw [shorten_url_commit_fail db rand commitFails now u hv hf hc]
        exact h
      | false =>
        rw [shorten_url_insert db rand commitFails now u hv hf hc]
        have hfresh : get_unique_short_code db rand 6 10 ∉ codes db := by
          simp only [Bool.or_eq_false_iff] at hc
          simpa using hc.2
        simp only [codes, List.map_append, List.map_cons, List.map_nil]
        rw [List.nodup_append]
        refine ⟨h, List.nodup_singleton _, ?_⟩
        intro a ha hb
        simp only [List.mem_singleton] at hb
        subst hb
        exact hfresh ha
  · rw [shorten_url_invalid db rand commitFails now u (by simpa using hv)]
    exact h

theorem stepOp_preserves_nodup (db : List URLRecord) (op : StoreOp)
    (h : (codes db).Nodup) : (codes (stepOp db op)).Nodup := by
  cases op with
  | create rand commitFails now u => exact shorten_url_preserves_nodup db rand commitFails now u h
  | redirect c => exact h
  | stats c => exact h

theorem runOps_nodup_aux : ∀ (ops : List StoreOp) (db : List URLRecord),
    (codes db).Nodup → (codes (ops.foldl stepOp db)).Nodup := by
  intro ops
  induction ops with
  | nil => intro db h; exact h
  | cons op rest ih => intro db h; exact ih (stepOp db op) (stepOp_preserves_nodup db op h)

/-- C7: uniqueness invariant — every operation (`shorten_url` via
`StoreOp.create`; `redirect_url` and `get_url_stats` are read-only) preserves
pairwise distinctness of the stored short codes, and every store state
reachable from the empty store by a sequence of sequential operations has
pairwise distinct short codes. -/
theorem uniqueness_invariant (db : List URLRecord) (op : StoreOp) (ops : List StoreOp) :
    ((codes db).Nodup → (codes (stepOp db op)).Nodup) ∧
    (codes (runOps ops)).Nodup := by
  constructor
  · exact stepOp_preserves_nodup db op
  · exact runOps_nodup_aux ops [] (by simp [codes])

theorem uniqueness_invariant_witness :
    (codes (stepOp
      [{ id := 1, short_code := "abc", original_url := "https://x.com", created_at := 0 }]
      (.redirect "abc"))).Nodup :=
  (uniqueness_invariant
    [{ id := 1, short_code := "abc", original_url := "https://x.com", created_at := 0 }]
    (.redirect "abc") []).1 (by decide)

example : generate_short_code (fun _ => 0) 0 6 = "aaaaaa" := by decide
example : get_unique_short_code [] (fun _ => 0) 6 10 = "aaaaaa" := by decide
example : validate_url "example.com" = true := by decide
example : validate_url "" = false := by decide
example : validate_url "not-a-valid-url" = false := by decide
example : normalize_url "example.com" = "https://example.com" := by decide
example : normalize_url "http://a.b" = "http://a.b" := by decide
